import Mathlib

/-!
Verification of the podfeed dialogue-extraction / audio-assembly pipeline
(`src/voice.py`, `src/sound_effects.py`) against its specification.

Python strings are modelled as `List Char` (Python `str` is a sequence of
code points).  File-system state is modelled explicitly; network calls are
modelled by oracles supplied as parameters.  Each definition carries a
comment pointing at the source lines it embeds.
-/

namespace Podfeed

/-- Abbreviation: a Python string, as a list of code points. -/
abbrev LC := List Char

/-! ## Generic Python string helpers -/

/-- Python `str.strip()`'s right half, parameterised by the character
predicate: removes trailing characters satisfying `p`. -/
def stripRightP (p : Char → Bool) : LC → LC
  | [] => []
  | c :: cs =>
    match stripRightP p cs with
    | [] => if p c then [] else [c]
    | r => c :: r

/-- Python `str.strip(chars)`: drop leading and trailing characters
satisfying `p`. -/
def pyStripP (p : Char → Bool) (cs : LC) : LC :=
  stripRightP p (cs.dropWhile p)

/-- Python `str.strip()` (whitespace). -/
def pyStrip (cs : LC) : LC := pyStripP Char.isWhitespace cs

/-- Python `s.split("\n")`: split on every newline, keeping empty pieces;
`"".split("\n") == [""]`. -/
def splitNL : LC → List LC
  | [] => [[]]
  | c :: cs =>
    if c = '\n' then [] :: splitNL cs
    else
      match splitNL cs with
      | l :: ls => (c :: l) :: ls
      | [] => [[c]]

/-- `"\n".join(lines)` — used to build concrete transcripts for theorems. -/
def joinNL : List LC → LC
  | [] => []
  | [l] => l
  | l :: ls => l ++ '\n' :: joinNL ls

/-- Python `str.lower()` (ASCII-adequate). -/
def lowerLC (cs : LC) : LC := cs.map Char.toLower

/-- Python `s.find(c)` for a single character, `None` instead of `-1`. -/
def findIdx (c : Char) : LC → Option Nat
  | [] => none
  | x :: xs => if x == c then some 0 else (findIdx c xs).map (· + 1)

/-- Python slice `s[a:b]` (with `a ≤ b` in all uses here). -/
def pySlice (cs : LC) (a b : Nat) : LC := (cs.drop a).take (b - a)

/-- `clean_env_var` (src/voice.py lines 21-31): drop everything from the
first `#`, strip whitespace, then strip surrounding quote characters. -/
def clean_env_var (s : LC) : LC :=
  pyStripP (fun c => c == '"' || c == '\'')
    (pyStrip (s.takeWhile (fun c => !(c == '#'))))

/-! ## ScriptParser: `VoiceSynthesizer.extract_dialogue` (src/voice.py 134-196) -/

/-- Case-insensitive character comparison, as `re.IGNORECASE` does for the
literal (`re.escape`d) label characters. -/
def charEqCI (a b : Char) : Bool := a.toLower == b.toLower

/-- Consume `label` (case-insensitively) from the front of `line`,
returning the remainder. -/
def matchLabel : LC → LC → Option LC
  | [], rest => some rest
  | _ :: _, [] => none
  | l :: ls, c :: cs => if charEqCI l c then matchLabel ls cs else none

/-- The regex test `re.match(rf"^\s*{label}\s*:", line_strip, re.IGNORECASE)`
(src/voice.py 168-169) applied to an already-stripped line: match the label
literally (case-insensitively), then optional whitespace, then a colon.
Returns the text after the matched region (`line_strip[m.end():]`). -/
def matchSpeaker (label line : LC) : Option LC :=
  match matchLabel label line with
  | none => none
  | some rest =>
    match rest.dropWhile Char.isWhitespace with
    | ':' :: tail => some tail
    | _ => none

/-- Parser state: accumulated turns, current speaker, current turn text
(`dialogue_turns`, `current_speaker`, `current_line`). -/
structure DState where
  turns : List (String × LC)
  speaker : Option String
  cur : LC
deriving DecidableEq

/-- Flush the in-progress turn (`if current_speaker and current_line:
dialogue_turns.append((current_speaker, current_line.strip()))`,
src/voice.py 173-174 and 192-193). -/
def flushTurn (st : DState) : List (String × LC) :=
  match st.speaker with
  | some sp => if st.cur ≠ [] then st.turns ++ [(sp, pyStrip st.cur)] else st.turns
  | none => st.turns

/-- One iteration of the line loop of `extract_dialogue`
(src/voice.py 162-189). -/
def dstep (h1 h2 : LC) (st : DState) (line : LC) : DState :=
  let ls := pyStrip line
  if ls = [] then st
  else
    let m1 := matchSpeaker h1 ls
    let m2 := matchSpeaker h2 ls
    if m1.isSome || m2.isSome then
      let ts := flushTurn st
      match m1, m2 with
      | some r, _ => ⟨ts, some "host1", pyStrip r⟩
      | none, some r => ⟨ts, some "host2", pyStrip r⟩
      | none, none => st
    else
      match st.speaker with
      | some _ =>
        -- defensive re-check of src/voice.py line 188 (always true here)
        if (matchSpeaker h1 ls).isSome || (matchSpeaker h2 ls).isSome then st
        else { st with cur := st.cur ++ ' ' :: ls }
      | none => st

/-- `VoiceSynthesizer.extract_dialogue` (src/voice.py 134-196): ordered
list of `(speaker_tag, text)` with tags `"host1"` / `"host2"`. -/
def extract_dialogue (script h1 h2 : LC) : List (String × LC) :=
  flushTurn ((splitNL script).foldl (dstep h1 h2) ⟨[], none, []⟩)

/-! ## SoundCueScanner: `SoundEffects.process_script_for_sfx`
(src/sound_effects.py 56-76) -/

/-- `self.sfx_mapping` (src/sound_effects.py 12-21). -/
def sfx_mapping : List (LC × LC) :=
  [ ("door slam".data, "door slamming".data)
  , ("applause".data, "audience applause".data)
  , ("laugh".data, "audience laughter".data)
  , ("drum roll".data, "drum roll".data)
  , ("suspense".data, "suspenseful music".data)
  , ("fight".data, "fight scene sound effects".data)
  , ("exit".data, "door closing and footsteps".data)
  , ("mic drop".data, "mic drop sound effect".data) ]

/-- Dictionary lookup `self.sfx_mapping[cue]` guarded by `cue in
self.sfx_mapping`. -/
def lookupCue (cue : LC) : Option LC :=
  (sfx_mapping.find? (fun p => p.1 == cue)).map (·.2)

/-- The cue extracted from one line by the body of the loop in
`process_script_for_sfx`: `start = line.find('[')`, `end = line.find(']')`,
emit only `if start < end` and the lower-cased stripped token is known. -/
def lineCue (line : LC) : Option (LC × LC) :=
  match findIdx '[' line, findIdx ']' line with
  | some s, some e =>
    if s < e then
      let cue := pyStrip (lowerLC (pySlice line (s + 1) e))
      (lookupCue cue).map (fun p => (cue, p))
    else none
  | _, _ => none

/-- `SoundEffects.process_script_for_sfx` (src/sound_effects.py 56-76):
list of `(line_index, cue, prompt)`. -/
def process_script_for_sfx (script : LC) : List (Nat × LC × LC) :=
  ((splitNL script).enum).filterMap
    (fun p => (lineCue p.2).map (fun c => (p.1, c.1, c.2)))

/-! ## File-system and network model

The pipeline touches the file system (scratch segment files, the sound
effect cache, the output file) and the network.  Files are an association
list from path to content; directories are a list of paths.  Network
behaviour is supplied by oracles. -/

/-- One piece of a pydub `AudioSegment` built by concatenation: a decoded
segment of a given duration (ms), or the fixed 250 ms silence buffer
(src/voice.py line 304). -/
inductive CItem where
  | seg (durationMs : Nat)
  | silence
deriving DecidableEq

/-- Content of a file: raw bytes of a given size (as written by
`text_to_speech` / `generate_sfx`), or an exported audio track, kept as
its sequence of spliced pieces. -/
inductive FileData where
  | bytes (n : Nat)
  | audio (items : List CItem)
deriving DecidableEq

/-- pydub `len(track)`: total duration in milliseconds. -/
def durList (items : List CItem) : Nat :=
  items.foldr (fun i acc => (match i with | .seg d => d | .silence => 250) + acc) 0

/-- `os.path.getsize`: raw files have their byte size; an exported mp3 is
never empty on disk. -/
def fileSize : FileData → Nat
  | .bytes n => n
  | .audio items => durList items + 1

/-- File-system state: files (path ↦ content) and existing scratch
directories. -/
structure FState where
  files : List (LC × FileData)
  dirs : List LC
deriving DecidableEq

/-- Look a path up in the file list (`os.path.exists` + read). -/
def lookupFile (p : LC) (fs : List (LC × FileData)) : Option FileData :=
  (fs.find? (fun e => e.1 == p)).map (·.2)

/-- Delete a file (`os.remove`, no-op when absent). -/
def removeFile (p : LC) (fs : List (LC × FileData)) : List (LC × FileData) :=
  fs.filter (fun e => !(e.1 == p))

/-- Write a file (`open(path,'wb').write`), overwriting any previous one. -/
def setFile (p : LC) (v : FileData) (fs : List (LC × FileData)) :
    List (LC × FileData) :=
  (p, v) :: removeFile p fs

/-- State-level file deletion. -/
def delFile (p : LC) (st : FState) : FState :=
  { st with files := removeFile p st.files }

/-- Delete a list of files in order (the cleanup loops of
`_generate_main_audio`). -/
def delFiles (ps : List LC) (st : FState) : FState :=
  ps.foldl (fun s p => delFile p s) st

/-- `tempfile.mkdtemp()` result, registered as a directory. -/
def addDir (d : LC) (st : FState) : FState :=
  { st with dirs := d :: st.dirs }

/-- `os.rmdir` inside `try/except`: succeeds only when no file remains
under the directory, otherwise leaves everything unchanged. -/
def rmdir (d : LC) (st : FState) : FState :=
  if st.files.any (fun e => (d ++ ['/']).isPrefixOf e.1) then st
  else { st with dirs := st.dirs.filter (fun x => !(x == d)) }

/-- Outcome of one HTTP synthesis call, as observed by the caller. -/
inductive NetOut where
  | httpOk (contentLen : Nat)
  | httpErr (code : Nat) (msg : LC)
  | timeout
  | netError (msg : LC)
deriving DecidableEq

/-- The parameters of an outgoing `requests.post` that matter to the spec:
the URL and whether a per-call `timeout=` bound is passed. -/
structure HttpPost where
  url : LC
  timeoutSec : Option Nat
deriving DecidableEq

/-- The request issued by `VoiceSynthesizer.text_to_speech`
(src/voice.py line 233): `requests.post(url, json=data, headers=self.headers,
timeout=90)`. -/
def tts_request (voice_id : LC) : HttpPost :=
  { url := "https://api.elevenlabs.io/v1/text-to-speech/".data ++ voice_id
  , timeoutSec := some 90 }

/-- The request issued by `SoundEffects.generate_sfx`
(src/sound_effects.py line 36): `requests.post(url, json=payload,
headers=headers)` — no `timeout=` argument. -/
def sfx_request : HttpPost :=
  { url := "https://api.elevenlabs.io/v1/sound-effects".data
  , timeoutSec := none }

/-! ## VoiceClient: `VoiceSynthesizer.text_to_speech` (src/voice.py 198-292) -/

/-- Basic validity check of src/voice.py line 212: the cleaned voice id
must be a string of length ≥ 5. -/
def validVoice (voice : LC) : Prop := 5 ≤ (clean_env_var voice).length

instance (voice : LC) : Decidable (validVoice voice) := by
  unfold validVoice; infer_instance

/-- `VoiceSynthesizer.text_to_speech` (src/voice.py 198-292).  Returns the
result string (the output path on success, a `"Skipped: ..."` or
`"Error: ..."` string otherwise, exactly as the source does) together with
the updated file system.  The network outcome of the single POST is the
parameter `o`.  A successful write of `n > 0` bytes is modelled as the
file appearing with size `n` (so the re-check of line 245 passes). -/
def text_to_speech (text voice outPath : LC) (o : NetOut) (st : FState) :
    LC × FState :=
  if pyStrip text = [] then
    ("Skipped: Empty text provided.".data, st)
  else
    let cv := clean_env_var voice
    if cv.length < 5 then
      ("Error: Invalid voice_id provided for TTS after cleaning: ".data ++ cv, st)
    else
      match o with
      | .httpOk n =>
        if 0 < n then
          (outPath, { st with files := setFile outPath (.bytes n) st.files })
        else
          ("Error: ElevenLabs API returned status 200 but with empty audio content for voice ".data
            ++ cv, st)
      | .httpErr code msg =>
        ("Error: ElevenLabs API returned status code ".data ++ (Nat.repr code).data
          ++ " for voice ".data ++ cv ++ " Message: ".data ++ msg, st)
      | .timeout =>
        ("Error: Timeout during ElevenLabs API request for voice ".data ++ cv, st)
      | .netError msg =>
        ("Error: Network error during ElevenLabs API request for voice ".data
          ++ cv ++ ": ".data ++ msg, st)

/-! ## EffectClient: `SoundEffects.generate_sfx` (src/sound_effects.py 23-54) -/

/-- The cache path computed at src/sound_effects.py line 27:
`os.path.join(self.cache_dir, f"{prompt.replace(' ', '_')}.mp3")`.
Note: only the space character `' '` is replaced. -/
def sfx_cache_path (prompt : LC) : LC :=
  "cache/sfx/".data ++ prompt.map (fun c => if c == ' ' then '_' else c)
    ++ ".mp3".data

/-- `SoundEffects.generate_sfx` (src/sound_effects.py 23-54).  `sfxNet`
gives the outcome of the POST (`some n` = `response.ok` with an `n`-byte
body, `none` = failure/exception).  Returns the result path (or `none`),
the file system, and the number of network calls made. -/
def generate_sfx (sfxNet : LC → Option Nat) (prompt : LC)
    (output_path : Option LC) (st : FState) : Option LC × FState × Nat :=
  let cache_path := sfx_cache_path prompt
  if (lookupFile cache_path st.files).isSome then
    (some cache_path, st, 0)
  else
    match sfxNet prompt with
    | some n =>
      -- `if not output_path: output_path = cache_path` (None or "" falsy)
      let out := match output_path with
        | some p => if p = [] then cache_path else p
        | none => cache_path
      (some out, { st with files := setFile out (.bytes n) st.files }, 1)
    | none => (none, st, 1)

/-! ## Concatenation: `VoiceSynthesizer.concatenate_audio_pydub`
(src/voice.py 294-331) -/

/-- Loading one segment inside the concatenation loop: the file must
exist with positive size (line 307), then `AudioSegment.from_mp3` must
succeed; raw bytes decode according to the `oracle`, an exported track
decodes to itself. -/
def loadSeg (oracle : LC → Option Nat) (st : FState) (f : LC) : Option Nat :=
  match lookupFile f st.files with
  | some fd =>
    if 0 < fileSize fd then
      match fd with
      | .bytes _ => oracle f
      | .audio items => some (durList items)
    else none
  | none => none

/-- The pieces accumulated in `combined` by the loop of src/voice.py
306-319: for index `i` out of `n` files, a decoded segment contributes
itself plus — when `i < n - 1` — the 250 ms silence; a missing, empty or
undecodable file contributes nothing (skipped). -/
def concatItems (oracle : LC → Option Nat) (st : FState) :
    Nat → Nat → List LC → List CItem
  | _, _, [] => []
  | i, n, f :: rest =>
    (match loadSeg oracle st f with
     | some d => .seg d :: (if i < n - 1 then [.silence] else [])
     | none => []) ++ concatItems oracle st (i + 1) n rest

/-- `VoiceSynthesizer.concatenate_audio_pydub` (src/voice.py 294-331):
returns the result string (the output path, or an `"Error: ..."` string)
and the file system, with the combined track exported to `output_path`
on success. -/
def concatenate_audio_pydub (oracle : LC → Option Nat) (segment_files : List LC)
    (output_path : LC) (st : FState) : LC × FState :=
  if segment_files = [] then
    ("Error: No audio segments provided for concatenation.".data, st)
  else
    let items := concatItems oracle st 0 segment_files.length segment_files
    if durList items = 0 then
      ("Error: Concatenation resulted in an empty audio file (all segments might have failed).".data,
        st)
    else
      (output_path, { st with files := setFile output_path (.audio items) st.files })

/-! ## AudioAssembler: `VoiceSynthesizer._generate_main_audio` /
`generate_audio` (src/voice.py 333-484) -/

/-- The fresh scratch directory returned by `tempfile.mkdtemp()`
(src/voice.py line 384), modelled as a fixed absolute path; its freshness
is expressed by hypotheses of the theorems.  (Written with an explicit
leading `'/'` so that proofs can see the first character.) -/
def temp_dir : LC := '/' :: "tmp/podfeed_segments".data

/-- `segment_file_path = os.path.join(temp_dir, f"segment_{i+1}.mp3")`
(src/voice.py line 395). -/
def segPath (td : LC) (i : Nat) : LC :=
  td ++ '/' :: ("segment_".data ++ (Nat.repr (i + 1)).data ++ ".mp3".data)

/-- Voice-id configuration of the synthesizer (read from environment
variables in `__init__`, src/voice.py 57-62). -/
structure Config where
  joe_rogan_voice_id : LC
  alex_cooper_voice_id : LC
  default_voice_1 : LC
  default_voice_2 : LC
deriving DecidableEq

/-- `final_voice1_id = voice1_id if voice1_id else (self.joe_rogan_voice_id
if host1_name.lower() == "joe rogan" else self.default_voice_1)`
(src/voice.py line 370); `None` and `""` are falsy. -/
def finalVoice (param : Option LC) (fallback : LC) : LC :=
  match param with
  | some v => if v = [] then fallback else v
  | none => fallback

/-- The fallback voice for host 1 (src/voice.py line 370). -/
def fallbackVoice1 (cfg : Config) (h1 : LC) : LC :=
  if lowerLC h1 = "joe rogan".data then cfg.joe_rogan_voice_id
  else cfg.default_voice_1

/-- The fallback voice for host 2 (src/voice.py line 371). -/
def fallbackVoice2 (cfg : Config) (h2 : LC) : LC :=
  if lowerLC h2 = "alex cooper".data then cfg.alex_cooper_voice_id
  else cfg.default_voice_2

/-- The validity re-check of src/voice.py line 417:
`os.path.exists(segment_file_path) and os.path.getsize(segment_file_path) > 0`. -/
def segFileOk (seg : LC) (st : FState) : Bool :=
  match lookupFile seg st.files with
  | some fd => !(fileSize fd == 0)
  | none => false

/-- The per-turn loop of `_generate_main_audio` (src/voice.py 388-437).
`net i` is the network outcome of the synthesis call for turn `i`
(0-based `enumerate` index).  On any `"Error:"`/`"Skipped:"` result or
invalid output file the code removes the current segment file, every
previously produced segment, and the scratch directory, and returns
`None`; otherwise it records the segment path and continues. -/
def synthLoop (net : Nat → NetOut) (v1 v2 td : LC) :
    Nat → List (String × LC) → List LC → FState → Option (List LC) × FState
  | _, [], segs, st => (some segs, st)
  | i, (speaker, text) :: rest, segs, st =>
    if pyStrip text = [] then
      -- `if not text.strip(): continue` (line 389)
      synthLoop net v1 v2 td (i + 1) rest segs st
    else
      let voice := if speaker == "host1" then v1 else v2
      let seg := segPath td i
      let r := text_to_speech text voice seg (net i) st
      if "Error:".data.isPrefixOf r.1 || "Skipped:".data.isPrefixOf r.1 then
        (none, rmdir td (delFiles segs (delFile seg r.2)))
      else if segFileOk seg r.2 then
        synthLoop net v1 v2 td (i + 1) rest (segs ++ [seg]) r.2
      else
        (none, rmdir td (delFiles segs (delFile seg r.2)))

/-- `VoiceSynthesizer._generate_main_audio` (src/voice.py 362-484):
parse, synthesize each turn, concatenate, clean up scratch state.
Returns `none` on failure, otherwise `some` of the concatenation result
string (the output path — or the concatenation error message, which the
source returns unexamined at line 470). -/
def generate_main_audio (cfg : Config) (net : Nat → NetOut)
    (oracle : LC → Option Nat) (script h1 h2 output_path : LC)
    (voice1_id voice2_id : Option LC) (st : FState) : Option LC × FState :=
  let v1 := finalVoice voice1_id (fallbackVoice1 cfg h1)
  let v2 := finalVoice voice2_id (fallbackVoice2 cfg h2)
  let turns := extract_dialogue script h1 h2
  if turns = [] then (none, st)
  else
    let td := temp_dir
    let st1 := addDir td st
    match synthLoop net v1 v2 td 0 turns [] st1 with
    | (none, st2) => (none, st2)
    | (some segs, st2) =>
      if segs = [] then (none, rmdir td st2)
      else
        let c := concatenate_audio_pydub oracle segs output_path st2
        (some c.1, rmdir td (delFiles segs c.2))

/-- Cue record produced by the scanner: `(line_index, cue, prompt)`. -/
abbrev Cue := Nat × LC × LC

/-- `AudioSegment.from_file` on an arbitrary file: raw bytes decode per
the oracle, an exported track decodes to its duration, a missing file
raises. -/
def loadAudio (oracle : LC → Option Nat) (st : FState) (p : LC) : Option Nat :=
  match lookupFile p st.files with
  | some (.bytes _) => oracle p
  | some (.audio items) => some (durList items)
  | none => none

/-- The per-cue loop of `SoundEffects.insert_sfx_into_audio`
(src/sound_effects.py 85-96), with the single surrounding `try`: a failed
`generate_sfx` is skipped, but a generated path that does not decode
raises inside the loop and aborts the whole insertion (returning the
state reached so far and `false`). -/
def sfxLoop (sfxNet : LC → Option Nat) (oracle : LC → Option Nat) :
    List Cue → FState → FState × Bool
  | [], st => (st, true)
  | c :: cs, st =>
    let r := generate_sfx sfxNet c.2.2 none st
    match r.1 with
    | none => sfxLoop sfxNet oracle cs r.2.1
    | some p =>
      match loadAudio oracle r.2.1 p with
      | none => (r.2.1, false)
      | some _ => sfxLoop sfxNet oracle cs r.2.1

/-- The spliced content re-exported by `insert_sfx_into_audio`; pydub
`overlay` mixes in place without changing the duration, so the item list
of the main track is preserved. -/
def overlaidItems (oracle : LC → Option Nat) (st : FState) (p : LC) :
    List CItem :=
  match lookupFile p st.files with
  | some (.audio items) => items
  | some (.bytes _) => [.seg ((oracle p).getD 0)]
  | none => []

/-- `SoundEffects.insert_sfx_into_audio` (src/sound_effects.py 78-104). -/
def insert_sfx_into_audio (sfxNet oracle : LC → Option Nat)
    (main_audio_path : LC) (sfx_cues : List Cue) (output_path : LC)
    (st : FState) : Option LC × FState :=
  match loadAudio oracle st main_audio_path with
  | none => (none, st)
  | some _ =>
    let r := sfxLoop sfxNet oracle sfx_cues st
    let st2 := r.1
    let newFiles :=
      setFile output_path (.audio (overlaidItems oracle st main_audio_path))
        st2.files
    if r.2 then (some output_path, { st2 with files := newFiles })
    else (none, st2)

/-- `VoiceSynthesizer.generate_audio` (src/voice.py 333-360): main audio,
then optional sound-effect overlay; on a false-y overlay result the main
audio result (path or error string) is returned unchanged. -/
def generate_audio (cfg : Config) (net : Nat → NetOut)
    (oracle sfxNet : LC → Option Nat) (script h1 h2 output_path : LC)
    (voice1_id voice2_id : Option LC) (st : FState) : Option LC × FState :=
  let m := generate_main_audio cfg net oracle script h1 h2 output_path
    voice1_id voice2_id st
  match m.1 with
  | none => (none, m.2)
  | some main =>
    if main = [] then (none, m.2)   -- `if not main_audio_path: return None`
    else
      let cues := process_script_for_sfx script
      if cues = [] then (some main, m.2)
      else
        let f := insert_sfx_into_audio sfxNet oracle main cues output_path m.2
        match f.1 with
        | some fin => if fin = [] then (some main, f.2) else (some fin, f.2)
        | none => (some main, f.2)

/-! ## Spec-side definitions (for refinement comparisons)

These definitions follow the wording of the claims being checked, to be
compared against the definitions above, which follow the source. -/

/-- The cue-extraction rule exactly as claim C3 words it: take the
substring between the first `'['` of the line and the first `']'`
*following it* (even when some `']'` occurs before the first `'['`). -/
def lineCueClaim (line : LC) : Option (LC × LC) :=
  match findIdx '[' line with
  | some s =>
    match findIdx ']' (line.drop (s + 1)) with
    | some e' =>
      let cue := pyStrip (lowerLC (pySlice line (s + 1) (s + 1 + e')))
      (lookupCue cue).map (fun p => (cue, p))
    | none => none
  | none => none

/-- The scanner claim C3 describes, built from `lineCueClaim`. -/
def scan_claim (script : LC) : List (Nat × LC × LC) :=
  ((splitNL script).enum).filterMap
    (fun p => (lineCueClaim p.2).map (fun c => (p.1, c.1, c.2)))

/-- The per-line cue rule as amended for C3: a cue is emitted exactly when
the first `'['` of the line precedes the first `']'` of the line (library
`List.findIdx?` formulation). -/
def lineCueAmended (line : LC) : Option (LC × LC) :=
  match line.findIdx? (fun c => c == '['), line.findIdx? (fun c => c == ']') with
  | some s, some e =>
    if s < e then
      let cue := pyStrip (lowerLC (pySlice line (s + 1) e))
      (lookupCue cue).map (fun p => (cue, p))
    else none
  | _, _ => none

/-- The amended scanner for C3. -/
def scan_amended (script : LC) : List (Nat × LC × LC) :=
  ((splitNL script).enum).filterMap
    (fun p => (lineCueAmended p.2).map (fun c => (p.1, c.1, c.2)))

/-- The cache path exactly as claim C5 words it: the description with
*whitespace* replaced by underscores. -/
def wsCacheKeyClaim (description : LC) : LC :=
  "cache/sfx/".data
    ++ description.map (fun c => if c.isWhitespace then '_' else c)
    ++ ".mp3".data

/-- Classification of a network outcome that makes `text_to_speech`
return an `"Error:"` string: any outcome other than a 200 response with a
non-empty body. -/
def isTTSFailure : NetOut → Bool
  | .httpOk n => n == 0
  | _ => true

/-- A network outcome on which `text_to_speech` succeeds. -/
def isOkNet : NetOut → Bool
  | .httpOk n => !(n == 0)
  | _ => false

/-- Number of turns with non-empty trimmed text — the turns for which the
synthesize loop produces a segment. -/
def keptCount (turns : List (String × LC)) : Nat :=
  (turns.filter (fun p => !(pyStrip p.2).isEmpty)).length

/-- Last character of a list, with a default for `[]`. -/
def lastD (d : Char) : LC → Char
  | [] => d
  | [c] => c
  | _ :: c :: cs => lastD d (c :: cs)

/-- A dialogue text suitable for building one labelled transcript line:
non-empty, no surrounding whitespace, and no embedded newline. -/
def niceText (t : LC) : Bool :=
  match t with
  | [] => false
  | c :: cs =>
    !c.isWhitespace && !(lastD 'x' (c :: cs)).isWhitespace
      && !((c :: cs).contains '\n')

/-- A speaker label suitable for building transcript lines: non-empty,
not starting with whitespace, no embedded newline. -/
def niceLabel (l : LC) : Bool :=
  match l with
  | [] => false
  | c :: cs => !c.isWhitespace && !((c :: cs).contains '\n')

/-- One transcript line `<label>:<text>`. -/
def mkTurnLine (label t : LC) : LC := label ++ ':' :: t

/-! ## Concrete instances used by the concrete theorems -/

/-- A concrete synthesizer configuration used by the concrete theorems. -/
def cfg0 : Config :=
  ⟨"voiceJoeRogan".data, "voiceAlexCooper".data,
   "voiceOne12345".data, "voiceTwo12345".data⟩

/-- Network oracle whose second call (turn index 1) times out and whose
other calls succeed with a 100-byte body. -/
def netFail2 : Nat → NetOut :=
  fun i => if i == 1 then .timeout else .httpOk 100

/-- Network oracle: every call succeeds with a 100-byte body. -/
def netOk : Nat → NetOut := fun _ => .httpOk 100

/-- Decode oracle: no raw file decodes. -/
def oracleNone : LC → Option Nat := fun _ => none

/-- Three concrete segment files on disk. -/
def st3 : FState :=
  ⟨[("segA.mp3".data, .bytes 5), ("segB.mp3".data, .bytes 6),
    ("segC.mp3".data, .bytes 7)], []⟩

/-- Decode oracle giving the three concrete segments durations
1000/2000/3000 ms. -/
def oracle3 : LC → Option Nat := fun p =>
  if p == "segA.mp3".data then some 1000
  else if p == "segB.mp3".data then some 2000
  else if p == "segC.mp3".data then some 3000
  else none

/-! ## Supporting lemmas -/

theorem lookupFile_setFile_self (p : LC) (v : FileData)
    (fs : List (LC × FileData)) : lookupFile p (setFile p v fs) = some v := by
  simp [lookupFile, setFile, List.find?]

theorem removeFile_of_absent (p : LC) (fs : List (LC × FileData))
    (h : ∀ e ∈ fs, e.1 ≠ p) : removeFile p fs = fs := by
  unfold removeFile
  rw [List.filter_eq_self]
  intro e he
  simp [h e he]

theorem isPrefixOf_append_left (a b c : LC) (h : a.isPrefixOf b = true) :
    a.isPrefixOf (b ++ c) = true := by
  induction a generalizing b with
  | nil => simp [List.isPrefixOf]
  | cons x xs ih =>
    cases b with
    | nil => simp [List.isPrefixOf] at h
    | cons y ys =>
      simp only [List.isPrefixOf, Bool.and_eq_true] at h
      simp only [List.cons_append, List.isPrefixOf, Bool.and_eq_true]
      exact ⟨h.1, ih ys h.2⟩

theorem durList_append (a b : List CItem) :
    durList (a ++ b) = durList a + durList b := by
  induction a with
  | nil => simp [durList]
  | cons i a ih => simp [durList, List.foldr] at ih ⊢; omega

theorem concatItems_append (oracle : LC → Option Nat) (st : FState) (n : Nat) :
    ∀ (a b : List LC) (i : Nat),
      concatItems oracle st i n (a ++ b)
        = concatItems oracle st i n a
          ++ concatItems oracle st (i + a.length) n b := by
  intro a
  induction a with
  | nil => intro b i; simp [concatItems]
  | cons f a ih =>
    intro b i
    simp only [List.cons_append, concatItems, List.length_cons, List.append_eq]
    rw [ih b (i + 1), List.append_assoc]
    have harith : i + 1 + a.length = i + (a.length + 1) := by omega
    rw [harith]

theorem getLast?_cons_of_ne_nil {α : Type} (x : α) (l : List α) (h : l ≠ []) :
    (x :: l).getLast? = l.getLast? := by
  cases l with
  | nil => exact absurd rfl h
  | cons y ys => simp [List.getLast?]

theorem getLast?_append_right {α : Type} (a b : List α) (hb : b ≠ []) :
    (a ++ b).getLast? = b.getLast? := by
  induction a with
  | nil => rfl
  | cons x a ih =>
    rw [List.cons_append, getLast?_cons_of_ne_nil x (a ++ b) (by simp [hb]), ih]

theorem concatItems_last_silence (oracle : LC → Option Nat) (st : FState)
    (n : Nat) :
    ∀ (segs : List LC) (i : Nat), i + segs.length < n →
      concatItems oracle st i n segs = []
        ∨ (concatItems oracle st i n segs).getLast? = some CItem.silence := by
  intro segs
  induction segs with
  | nil => intro i _; left; rfl
  | cons f segs ih =>
    intro i h
    have hi : i < n - 1 := by simp [List.length_cons] at h; omega
    have hrest := ih (i + 1) (by simp [List.length_cons] at h ⊢; omega)
    simp only [concatItems]
    cases hload : loadSeg oracle st f with
    | none => simpa using hrest
    | some d =>
      rw [if_pos hi]
      right
      cases hrest with
      | inl he =>
        rw [he, List.append_nil]
        rfl
      | inr he =>
        rw [getLast?_append_right _ _ (by intro hc; rw [hc] at he; cases he)]
        exact he

theorem concatItems_ne_nil (oracle : LC → Option Nat) (st : FState) (n : Nat) :
    ∀ (segs : List LC) (i : Nat) (f : LC), f ∈ segs →
      loadSeg oracle st f ≠ none → concatItems oracle st i n segs ≠ [] := by
  intro segs
  induction segs with
  | nil => intro i f hf _; cases hf
  | cons g segs ih =>
    intro i f hf hload
    simp only [concatItems]
    rcases List.mem_cons.mp hf with rfl | hmem
    · cases hl : loadSeg oracle st f with
      | none => exact absurd hl hload
      | some d => simp
    · cases hl : loadSeg oracle st g with
      | none => simpa using ih (i + 1) f hmem hload
      | some d => simp

theorem durList_cons (i : CItem) (l : List CItem) :
    durList (i :: l)
      = (match i with | .seg d => d | .silence => 250) + durList l := rfl

theorem durList_pos_of_last_silence :
    ∀ items : List CItem, items.getLast? = some CItem.silence →
      0 < durList items := by
  intro items
  induction items with
  | nil => intro h; cases h
  | cons x l ih =>
    intro h
    cases l with
    | nil =>
      simp [List.getLast?] at h
      subst h
      simp [durList]
    | cons y ys =>
      rw [getLast?_cons_of_ne_nil x (y :: ys) (by simp)] at h
      have := ih h
      rw [durList_cons]
      omega

theorem err_not_pre_slash (x : LC) :
    "Error:".data.isPrefixOf ('/' :: x) = false := by
  rw [show "Error:".data = 'E' :: "rror:".data from by decide]
  simp +decide [List.isPrefixOf]

theorem skip_not_pre_slash (x : LC) :
    "Skipped:".data.isPrefixOf ('/' :: x) = false := by
  rw [show "Skipped:".data = 'S' :: "kipped:".data from by decide]
  simp +decide [List.isPrefixOf]

theorem err_not_pre_seg (i : Nat) :
    "Error:".data.isPrefixOf (segPath temp_dir i) = false := by
  show "Error:".data.isPrefixOf
    (('/' :: "tmp/podfeed_segments".data) ++ _) = false
  rw [List.cons_append]
  exact err_not_pre_slash _

theorem skip_not_pre_seg (i : Nat) :
    "Skipped:".data.isPrefixOf (segPath temp_dir i) = false := by
  show "Skipped:".data.isPrefixOf
    (('/' :: "tmp/podfeed_segments".data) ++ _) = false
  rw [List.cons_append]
  exact skip_not_pre_slash _

theorem err_not_prefix_seg (i : Nat) :
    ¬("Error:".data <+: segPath temp_dir i) := by
  rw [← List.isPrefixOf_iff_prefix, err_not_pre_seg]
  simp

theorem skip_not_prefix_seg (i : Nat) :
    ¬("Skipped:".data <+: segPath temp_dir i) := by
  rw [← List.isPrefixOf_iff_prefix, skip_not_pre_seg]
  simp

theorem tts_ok (text voice outP : LC) (n : Nat) (st : FState)
    (ht : ¬pyStrip text = []) (hv : validVoice voice) (hn : 0 < n) :
    text_to_speech text voice outP (.httpOk n) st
      = (outP, { st with files := setFile outP (.bytes n) st.files }) := by
  unfold text_to_speech
  rw [if_neg ht]
  rw [if_neg (by unfold validVoice at hv; omega :
    ¬(clean_env_var voice).length < 5)]
  simp [hn]

theorem tts_fail (text voice outP : LC) (o : NetOut) (st : FState)
    (ht : ¬pyStrip text = []) (hv : validVoice voice)
    (hfail : isTTSFailure o = true) :
    ∃ m, text_to_speech text voice outP o st = (m, st)
      ∧ ("Error:".data.isPrefixOf m || "Skipped:".data.isPrefixOf m) = true := by
  have hv5 : ¬(clean_env_var voice).length < 5 := by
    unfold validVoice at hv; omega
  cases o with
  | httpOk n =>
    have hn : n = 0 := by simpa [isTTSFailure] using hfail
    subst hn
    refine ⟨"Error: ElevenLabs API returned status 200 but with empty audio content for voice ".data
      ++ clean_env_var voice, ?_, ?_⟩
    · unfold text_to_speech
      rw [if_neg ht, if_neg hv5]
      simp
    · rw [Bool.or_eq_true]
      left
      exact isPrefixOf_append_left _ _ _ (by decide)
  | httpErr code msg =>
    refine ⟨"Error: ElevenLabs API returned status code ".data
      ++ (Nat.repr code).data ++ " for voice ".data ++ clean_env_var voice
      ++ " Message: ".data ++ msg, ?_, ?_⟩
    · unfold text_to_speech
      rw [if_neg ht, if_neg hv5]
    · rw [Bool.or_eq_true]
      left
      repeat apply isPrefixOf_append_left
      decide
  | timeout =>
    refine ⟨"Error: Timeout during ElevenLabs API request for voice ".data
      ++ clean_env_var voice, ?_, ?_⟩
    · unfold text_to_speech
      rw [if_neg ht, if_neg hv5]
    · rw [Bool.or_eq_true]
      left
      exact isPrefixOf_append_left _ _ _ (by decide)
  | netError msg =>
    refine ⟨"Error: Network error during ElevenLabs API request for voice ".data
      ++ clean_env_var voice ++ ": ".data ++ msg, ?_, ?_⟩
    · unfold text_to_speech
      rw [if_neg ht, if_neg hv5]
    · rw [Bool.or_eq_true]
      left
      repeat apply isPrefixOf_append_left
      decide

theorem segFileOk_setFile_self (p : LC) (n : Nat) (st : FState) :
    segFileOk p { st with files := setFile p (.bytes n) st.files }
      = !(n == 0) := by
  simp [segFileOk, lookupFile_setFile_self, fileSize]

theorem keptCount_nil : keptCount [] = 0 := rfl

theorem keptCount_cons_empty (sp : String) (t : LC)
    (rest : List (String × LC)) (h : pyStrip t = []) :
    keptCount ((sp, t) :: rest) = keptCount rest := by
  simp [keptCount, List.filter, h]

theorem keptCount_cons_kept (sp : String) (t : LC)
    (rest : List (String × LC)) (h : ¬pyStrip t = []) :
    keptCount ((sp, t) :: rest) = keptCount rest + 1 := by
  have hne : (pyStrip t).isEmpty = false := by
    cases hp : pyStrip t with
    | nil => exact absurd hp h
    | cons a l => rfl
  simp [keptCount, List.filter, hne]

theorem ne_of_under (p e1 : LC)
    (hp : (temp_dir ++ ['/']).isPrefixOf p = true)
    (he : (temp_dir ++ ['/']).isPrefixOf e1 = false) : e1 ≠ p := by
  intro h
  rw [h, hp] at he
  cases he

theorem removeFile_cons_self (p : LC) (v : FileData)
    (fs : List (LC × FileData)) :
    removeFile p ((p, v) :: fs) = removeFile p fs := by
  simp [removeFile, List.filter]

theorem cleanup_files (p q : LC) (v : FileData) (fs : List (LC × FileData))
    (hpq : p ≠ q)
    (hp : ∀ e ∈ fs, e.1 ≠ p) (hq : ∀ e ∈ fs, e.1 ≠ q) :
    removeFile p (removeFile q (setFile p v fs)) = fs := by
  rw [setFile, removeFile_of_absent p fs hp]
  have h1 : removeFile q ((p, v) :: fs) = (p, v) :: fs := by
    apply removeFile_of_absent
    intro e he
    rcases List.mem_cons.mp he with rfl | hm
    · exact hpq
    · exact hq e hm
  rw [h1, removeFile_cons_self, removeFile_of_absent p fs hp]

theorem any_under_false (pre : LC) (fs : List (LC × FileData))
    (h : ∀ e ∈ fs, pre.isPrefixOf e.1 = false) :
    fs.any (fun e => pre.isPrefixOf e.1) = false := by
  rw [List.any_eq_false]
  intro e he
  simp [h e he]

theorem rmdir_fresh (fs : List (LC × FileData)) (dirs : List LC)
    (h : fs.any (fun e => (temp_dir ++ ['/']).isPrefixOf e.1) = false)
    (hd : temp_dir ∉ dirs) :
    rmdir temp_dir ⟨fs, temp_dir :: dirs⟩ = ⟨fs, dirs⟩ := by
  unfold rmdir
  rw [if_neg (by simp [h])]
  have h1 : (temp_dir :: dirs).filter (fun x => !(x == temp_dir)) = dirs := by
    simp only [List.filter, beq_self_eq_true, Bool.not_true]
    rw [List.filter_eq_self]
    intro d hdm
    simp
    intro hc
    exact hd (hc ▸ hdm)
  simp only [h1]

theorem synthLoop_cons_ok (net : Nat → NetOut) (v1 v2 : LC) (i : Nat)
    (sp : String) (t : LC) (rest : List (String × LC)) (segs : List LC)
    (st : FState) (n : Nat)
    (ht : ¬pyStrip t = []) (hv : validVoice (if sp == "host1" then v1 else v2))
    (hn_eq : net i = .httpOk n) (hn : 0 < n) :
    synthLoop net v1 v2 temp_dir i ((sp, t) :: rest) segs st
      = synthLoop net v1 v2 temp_dir (i + 1) rest
          (segs ++ [segPath temp_dir i])
          { st with files := setFile (segPath temp_dir i) (.bytes n) st.files } := by
  have hnz : n ≠ 0 := by omega
  simp only [synthLoop]
  rw [if_neg ht, hn_eq,
    tts_ok t (if sp == "host1" then v1 else v2) (segPath temp_dir i) n st
      ht hv hn]
  rw [if_neg (by rw [err_not_pre_seg, skip_not_pre_seg]; simp :
    ¬(("Error:".data.isPrefixOf (segPath temp_dir i)
      || "Skipped:".data.isPrefixOf (segPath temp_dir i)) = true))]
  rw [if_pos (by rw [segFileOk_setFile_self]; simp [hnz] :
    segFileOk (segPath temp_dir i)
      { st with files := setFile (segPath temp_dir i) (.bytes n) st.files }
      = true)]

theorem synthLoop_cons_fail (net : Nat → NetOut) (v1 v2 : LC) (i : Nat)
    (sp : String) (t : LC) (rest : List (String × LC)) (segs : List LC)
    (st : FState)
    (ht : ¬pyStrip t = []) (hv : validVoice (if sp == "host1" then v1 else v2))
    (hfail : isTTSFailure (net i) = true) :
    synthLoop net v1 v2 temp_dir i ((sp, t) :: rest) segs st
      = (none, rmdir temp_dir (delFiles segs (delFile (segPath temp_dir i) st))) := by
  obtain ⟨m, hm, hpre⟩ := tts_fail t (if sp == "host1" then v1 else v2)
    (segPath temp_dir i) (net i) st ht hv hfail
  simp only [synthLoop]
  rw [if_neg ht, hm, if_pos hpre]

theorem synthLoop_all_ok (net : Nat → NetOut) (v1 v2 : LC)
    (hv1 : validVoice v1) (hv2 : validVoice v2)
    (hnet : ∀ j, isOkNet (net j) = true) :
    ∀ (turns : List (String × LC)) (i : Nat) (segs : List LC) (st : FState),
      ∃ l st2, synthLoop net v1 v2 temp_dir i turns segs st = (some l, st2)
        ∧ l.length = segs.length + keptCount turns := by
  intro turns
  induction turns with
  | nil => intro i segs st; exact ⟨segs, st, rfl, by simp [keptCount_nil]⟩
  | cons turn rest ih =>
    intro i segs st
    obtain ⟨sp, t⟩ := turn
    by_cases hstrip : pyStrip t = []
    · obtain ⟨l, st2, heq, hlen⟩ := ih (i + 1) segs st
      refine ⟨l, st2, ?_, ?_⟩
      · simp only [synthLoop]
        rw [if_pos hstrip]
        exact heq
      · rw [hlen, keptCount_cons_empty sp t rest hstrip]
    · obtain ⟨n, hn_eq, hn_pos⟩ : ∃ n, net i = .httpOk n ∧ 0 < n := by
        have hok := hnet i
        cases hcase : net i with
        | httpOk n =>
          rw [hcase] at hok
          simp [isOkNet] at hok
          exact ⟨n, rfl, by omega⟩
        | httpErr code msg => rw [hcase] at hok; simp [isOkNet] at hok
        | timeout => rw [hcase] at hok; simp [isOkNet] at hok
        | netError msg => rw [hcase] at hok; simp [isOkNet] at hok
      have hvv : validVoice (if sp == "host1" then v1 else v2) := by
        split <;> assumption
      obtain ⟨l, st2, heq, hlen⟩ := ih (i + 1) (segs ++ [segPath temp_dir i])
        { st with files := setFile (segPath temp_dir i) (.bytes n) st.files }
      refine ⟨l, st2, ?_, ?_⟩
      · simp only [synthLoop]
        rw [if_neg hstrip, hn_eq,
          tts_ok t (if sp == "host1" then v1 else v2) (segPath temp_dir i) n st
            hstrip hvv hn_pos]
        rw [if_neg (by rw [err_not_pre_seg, skip_not_pre_seg]; simp)]
        rw [if_pos (by rw [segFileOk_setFile_self]; simpa using by omega)]
        exact heq
      · rw [hlen, keptCount_cons_kept sp t rest hstrip]
        simp
        omega

theorem lastD_cons_of_ne_nil (d c : Char) (l : LC) (h : l ≠ []) :
    lastD d (c :: l) = lastD d l := by
  cases l with
  | nil => exact absurd rfl h
  | cons x xs => rfl

theorem lastD_append (d : Char) (a : LC) (x : Char) (b : LC) :
    lastD d (a ++ x :: b) = lastD d (x :: b) := by
  induction a with
  | nil => rfl
  | cons c a ih =>
    rw [List.cons_append, lastD_cons_of_ne_nil d c (a ++ x :: b) (by simp), ih]

theorem stripRightP_eq_self (p : Char → Bool) :
    ∀ cs : LC, cs ≠ [] → p (lastD 'x' cs) = false → stripRightP p cs = cs := by
  intro cs
  induction cs with
  | nil => intro h _; exact absurd rfl h
  | cons c cs ih =>
    intro _ hp
    cases cs with
    | nil =>
      simp only [lastD] at hp
      simp [stripRightP, hp]
    | cons c2 rest =>
      rw [lastD_cons_of_ne_nil 'x' c (c2 :: rest) (by simp)] at hp
      have ih' := ih (by simp) hp
      show (match stripRightP p (c2 :: rest) with
        | [] => if p c = true then [] else [c]
        | r => c :: r) = c :: c2 :: rest
      rw [ih']

theorem pyStrip_eq_self (c : Char) (cs : LC) (hh : c.isWhitespace = false)
    (hl : (lastD 'x' (c :: cs)).isWhitespace = false) :
    pyStrip (c :: cs) = c :: cs := by
  unfold pyStrip pyStripP
  rw [List.dropWhile_cons, if_neg (by simp [hh])]
  exact stripRightP_eq_self _ _ (by simp) hl

theorem not_mem_of_contains_false {a : Char} {l : LC}
    (h : l.contains a = false) : a ∉ l := by
  intro hm
  rw [show l.contains a = List.elem a l from rfl,
    List.elem_eq_true_of_mem hm] at h
  cases h

theorem niceText_props (t : LC) (h : niceText t = true) :
    t ≠ [] ∧ pyStrip t = t ∧ '\n' ∉ t := by
  cases t with
  | nil => simp [niceText] at h
  | cons c cs =>
    simp only [niceText, Bool.and_eq_true, Bool.not_eq_true'] at h
    exact ⟨by simp, pyStrip_eq_self c cs h.1.1 h.1.2,
      not_mem_of_contains_false h.2⟩

theorem niceLabel_props (l : LC) (h : niceLabel l = true) :
    l ≠ [] ∧ '\n' ∉ l ∧ (∃ c cs, l = c :: cs ∧ c.isWhitespace = false) := by
  cases l with
  | nil => simp [niceLabel] at h
  | cons c cs =>
    simp only [niceLabel, Bool.and_eq_true, Bool.not_eq_true'] at h
    exact ⟨by simp, not_mem_of_contains_false h.2, c, cs, rfl, h.1⟩

theorem matchLabel_self : ∀ l r : LC, matchLabel l (l ++ r) = some r := by
  intro l
  induction l with
  | nil => intro r; rfl
  | cons c l ih =>
    intro r
    simp only [List.cons_append, matchLabel, charEqCI, beq_self_eq_true,
      if_true]
    exact ih r

theorem matchSpeaker_mkTurn (label t : LC) :
    matchSpeaker label (mkTurnLine label t) = some t := by
  unfold matchSpeaker mkTurnLine
  rw [matchLabel_self]
  simp +decide [List.dropWhile_cons]

theorem mkTurnLine_ne_nil (label t : LC) (h : label ≠ []) :
    mkTurnLine label t ≠ [] := by
  cases label with
  | nil => exact absurd rfl h
  | cons c cs => simp [mkTurnLine]

theorem mkTurnLine_no_newline (label t : LC) (hl : '\n' ∉ label)
    (ht : '\n' ∉ t) : '\n' ∉ mkTurnLine label t := by
  unfold mkTurnLine
  intro hm
  rcases List.mem_append.mp hm with h | h
  · exact hl h
  · rcases List.mem_cons.mp h with h | h
    · cases h
    · exact ht h

theorem pyStrip_mkTurn (label t : LC) (hl : niceLabel label = true)
    (ht : niceText t = true) :
    pyStrip (mkTurnLine label t) = mkTurnLine label t := by
  obtain ⟨-, -, c, cs, rfl, hc⟩ := niceLabel_props label hl
  cases t with
  | nil => simp [niceText] at ht
  | cons x xs =>
    simp only [niceText, Bool.and_eq_true, Bool.not_eq_true'] at ht
    have hlast : (lastD 'x' (c :: (cs ++ ':' :: (x :: xs)))).isWhitespace
        = false := by
      rw [show c :: (cs ++ ':' :: (x :: xs)) = (c :: cs) ++ ':' :: (x :: xs)
          from rfl,
        lastD_append 'x' (c :: cs) ':' (x :: xs),
        lastD_cons_of_ne_nil 'x' ':' (x :: xs) (by simp)]
      exact ht.1.2
    have := pyStrip_eq_self c (cs ++ ':' :: (x :: xs)) hc hlast
    simpa [mkTurnLine] using this

theorem dstep_labeled (lab h2 : LC) (hl : niceLabel lab = true) (t : LC)
    (ht : niceText t = true) (st : DState) :
    dstep lab h2 st (mkTurnLine lab t) = ⟨flushTurn st, some "host1", t⟩ := by
  have hstrip := pyStrip_mkTurn lab t hl ht
  have hmatch := matchSpeaker_mkTurn lab t
  have hne : mkTurnLine lab t ≠ [] :=
    mkTurnLine_ne_nil lab t (niceLabel_props lab hl).1
  have htp : pyStrip t = t := (niceText_props t ht).2.1
  simp only [dstep]
  rw [hstrip, if_neg hne, hmatch]
  simp [htp]

theorem fold_labeled (lab h2 : LC) (hl : niceLabel lab = true) :
    ∀ (ts : List LC) (acc : List (String × LC)) (cur : LC),
      (∀ t ∈ ts, niceText t = true) →
      flushTurn ((ts.map (mkTurnLine lab)).foldl (dstep lab h2)
          ⟨acc, some "host1", cur⟩)
        = flushTurn ⟨acc, some "host1", cur⟩
          ++ ts.map (fun t => ("host1", t)) := by
  intro ts
  induction ts with
  | nil => intro acc cur _; simp
  | cons t ts ih =>
    intro acc cur hts
    have ht := hts t (by simp)
    have htne : t ≠ [] := (niceText_props t ht).1
    have htp : pyStrip t = t := (niceText_props t ht).2.1
    simp only [List.map_cons, List.foldl_cons]
    rw [dstep_labeled lab h2 hl t ht ⟨acc, some "host1", cur⟩]
    rw [ih (flushTurn ⟨acc, some "host1", cur⟩) t
      (fun x hx => hts x (by simp [hx]))]
    simp [flushTurn, htne, htp]

theorem splitNL_no_newline : ∀ l : LC, '\n' ∉ l → splitNL l = [l] := by
  intro l
  induction l with
  | nil => intro _; rfl
  | cons c l ih =>
    intro h
    have hc : ¬(c = '\n') := fun e => h (by simp [e])
    simp only [splitNL]
    rw [if_neg hc, ih (fun hm => h (by simp [hm]))]

theorem splitNL_append_newline :
    ∀ (l cs : LC), '\n' ∉ l → splitNL (l ++ '\n' :: cs) = l :: splitNL cs := by
  intro l
  induction l with
  | nil => intro cs _; simp [splitNL]
  | cons c l ih =>
    intro cs h
    have hc : ¬(c = '\n') := fun e => h (by simp [e])
    simp only [List.cons_append, splitNL, List.append_eq]
    rw [if_neg hc, ih cs (fun hm => h (by simp [hm]))]

theorem splitNL_joinNL : ∀ ls : List LC, ls ≠ [] →
    (∀ l ∈ ls, '\n' ∉ l) → splitNL (joinNL ls) = ls := by
  intro ls
  induction ls with
  | nil => intro h _; exact absurd rfl h
  | cons l ls ih =>
    intro _ hno
    cases ls with
    | nil => exact splitNL_no_newline l (hno l (by simp))
    | cons l2 rest =>
      show splitNL (l ++ '\n' :: joinNL (l2 :: rest)) = l :: l2 :: rest
      rw [splitNL_append_newline l _ (hno l (by simp))]
      rw [ih (by simp) (fun x hx => hno x (by simp [hx]))]

theorem findIdx_eq_lib (c : Char) :
    ∀ l : LC, findIdx c l = l.findIdx? (fun x => x == c) := by
  intro l
  induction l with
  | nil => rfl
  | cons x xs ih =>
    simp only [findIdx, List.findIdx?_cons]
    by_cases h : (x == c) = true
    · simp [h]
    · simp only [h, Bool.false_eq_true, if_false, ih]
      rw [List.findIdx?_succ]

theorem lineCue_eq_amended (line : LC) : lineCue line = lineCueAmended line := by
  unfold lineCue lineCueAmended
  rw [← findIdx_eq_lib '[', ← findIdx_eq_lib ']']

end Podfeed

namespace Podfeed

/-! ## Claim theorems -/

/-- C1, counterexample: on the transcript `"Joe: a\nJoe: b"` — two
consecutive non-empty lines, each beginning with the same speaker's label
and a colon, with no intervening line — `extract_dialogue` does *not*
merge the lines into one DialogueTurn `("host1", "a b")`; it yields two
separate turns, one per labelled line. -/
theorem C1_counterexample :
    extract_dialogue "Joe: a\nJoe: b".data "Joe".data "Alex".data
        = [("host1", "a".data), ("host1", "b".data)]
      ∧ extract_dialogue "Joe: a\nJoe: b".data "Joe".data "Alex".data
        ≠ [("host1", "a b".data)] := by
  decide

/-- C2, counterexample: for a 3-turn transcript whose second
voice-synthesis call fails (times out), `_generate_main_audio` returns
`None` — the very same value it returns for the "no dialogue extractable"
failure on an empty transcript.  The returned failure therefore neither
identifies the failing turn index or voice nor is distinguishable from
the no-dialogue failure. -/
theorem C2_counterexample :
    (generate_main_audio cfg0 netFail2 oracleNone
        "Joe: a\nAlex: b\nJoe: c".data "Joe".data "Alex".data
        "out.mp3".data none none ⟨[], []⟩).1 = none
      ∧ (generate_main_audio cfg0 netFail2 oracleNone "".data "Joe".data
        "Alex".data "out.mp3".data none none ⟨[], []⟩).1 = none := by
  decide

/-- C1, amended: every line beginning with the speaker's label and a colon
starts a new DialogueTurn.  For every transcript consisting of N labelled
lines of the same speaker (each `<label>:<text>` with non-empty trimmed
text), `extract_dialogue` yields N separate turns — one per labelled
line, in order, each with that line's trimmed text — not one merged
turn; merging applies only to unlabelled continuation lines. -/
theorem C1_amended (lab h2 : LC) (ts : List LC)
    (hl : niceLabel lab = true) (hts : ∀ t ∈ ts, niceText t = true)
    (hne : ts ≠ []) :
    extract_dialogue (joinNL (ts.map (mkTurnLine lab))) lab h2
      = ts.map (fun t => ("host1", t)) := by
  have hsplit : splitNL (joinNL (ts.map (mkTurnLine lab)))
      = ts.map (mkTurnLine lab) := by
    apply splitNL_joinNL
    · simp [hne]
    · intro l hlm
      obtain ⟨t, htm, rfl⟩ := List.mem_map.mp hlm
      exact mkTurnLine_no_newline lab t (niceLabel_props lab hl).2.1
        (niceText_props t (hts t htm)).2.2
  unfold extract_dialogue
  rw [hsplit]
  cases ts with
  | nil => exact absurd rfl hne
  | cons t0 rest =>
    have ht0 := hts t0 (by simp)
    simp only [List.map_cons, List.foldl_cons]
    rw [dstep_labeled lab h2 hl t0 ht0 ⟨[], none, []⟩]
    rw [fold_labeled lab h2 hl rest (flushTurn ⟨[], none, []⟩) t0
      (fun x hx => hts x (by simp [hx]))]
    simp [flushTurn, (niceText_props t0 ht0).1, (niceText_props t0 ht0).2.1]

/-- C1, witness: two consecutive labelled lines `Joe:a` / `Joe:b` produce
the two turns `("host1","a")`, `("host1","b")`. -/
theorem C1_amended_witness :
    extract_dialogue
        (joinNL (["a".data, "b".data].map (mkTurnLine "Joe".data)))
        "Joe".data "Alex".data
      = [("host1", "a".data), ("host1", "b".data)] :=
  C1_amended "Joe".data "Alex".data ["a".data, "b".data]
    (by decide) (by decide) (by decide)

/-- C3, amended: `process_script_for_sfx` equals the scanner that, per
line, emits a cue exactly when the index of the first `'['` of the line
is smaller than the index of the first `']'` of the whole line and the
lower-cased trimmed text between them is a known cue (stated via the
library `List.findIdx?`); lines whose first `']'` precedes their first
`'['` yield no cue. -/
theorem C3_amended (script : LC) :
    process_script_for_sfx script = scan_amended script := by
  unfold process_script_for_sfx scan_amended
  congr 1
  funext p
  rw [lineCue_eq_amended]

/-- C2, amended: for every 3-turn transcript whose second voice-synthesis
call fails, `_generate_main_audio` returns `None` — a bare failure value
carrying no turn index or voice, the same value as the no-dialogue
failure — and leaves the file system exactly as it was: every scratch
segment file and the scratch directory are deleted, and no file is
created at `output_path`. -/
theorem C2_amended (cfg : Config) (net : Nat → NetOut)
    (oracle : LC → Option Nat) (script h1 h2 outP : LC)
    (v1? v2? : Option LC) (st : FState)
    (s1 s2 s3 : String) (t1 t2 t3 : LC) (n0 : Nat)
    (hturns : extract_dialogue script h1 h2 = [(s1, t1), (s2, t2), (s3, t3)])
    (ht1 : ¬pyStrip t1 = []) (ht2 : ¬pyStrip t2 = [])
    (hv1 : validVoice (finalVoice v1? (fallbackVoice1 cfg h1)))
    (hv2 : validVoice (finalVoice v2? (fallbackVoice2 cfg h2)))
    (hnet0 : net 0 = .httpOk n0) (hn0 : 0 < n0)
    (hfail : isTTSFailure (net 1) = true)
    (hfresh : ∀ e ∈ st.files, (temp_dir ++ ['/']).isPrefixOf e.1 = false)
    (hdir : temp_dir ∉ st.dirs) :
    generate_main_audio cfg net oracle script h1 h2 outP v1? v2? st
      = (none, st) := by
  have hw1 : validVoice (if s1 == "host1"
      then finalVoice v1? (fallbackVoice1 cfg h1)
      else finalVoice v2? (fallbackVoice2 cfg h2)) := by
    split <;> assumption
  have hw2 : validVoice (if s2 == "host1"
      then finalVoice v1? (fallbackVoice1 cfg h1)
      else finalVoice v2? (fallbackVoice2 cfg h2)) := by
    split <;> assumption
  have hpre0 : (temp_dir ++ ['/']).isPrefixOf (segPath temp_dir 0) = true := by
    decide
  have hpre1 : (temp_dir ++ ['/']).isPrefixOf (segPath temp_dir 1) = true := by
    decide
  have hne01 : segPath temp_dir 0 ≠ segPath temp_dir 1 := by decide
  have hp0 : ∀ e ∈ st.files, e.1 ≠ segPath temp_dir 0 :=
    fun e he => ne_of_under _ _ hpre0 (hfresh e he)
  have hp1 : ∀ e ∈ st.files, e.1 ≠ segPath temp_dir 1 :=
    fun e he => ne_of_under _ _ hpre1 (hfresh e he)
  have hstep :
      synthLoop net (finalVoice v1? (fallbackVoice1 cfg h1))
          (finalVoice v2? (fallbackVoice2 cfg h2)) temp_dir 0
          [(s1, t1), (s2, t2), (s3, t3)] [] (addDir temp_dir st)
        = (none, st) := by
    rw [synthLoop_cons_ok net _ _ 0 s1 t1 _ [] (addDir temp_dir st) n0
      ht1 hw1 hnet0 hn0]
    rw [synthLoop_cons_fail net _ _ 1 s2 t2 _ _ _ ht2 hw2 hfail]
    simp only [List.nil_append, delFiles, List.foldl, delFile, addDir]
    rw [cleanup_files (segPath temp_dir 0) (segPath temp_dir 1)
      (.bytes n0) st.files hne01 hp0 hp1]
    rw [rmdir_fresh st.files st.dirs (any_under_false _ _ hfresh) hdir]
  simp only [generate_main_audio]
  rw [hturns]
  rw [if_neg (by simp :
    ¬([(s1, t1), (s2, t2), (s3, t3)] : List (String × LC)) = [])]
  rw [hstep]

/-- C2, witness: the amended theorem at the concrete 3-turn transcript
`"Joe: a\nAlex: b\nJoe: c"` with the second call timing out, starting
from an empty file system. -/
theorem C2_amended_witness :
    generate_main_audio cfg0 netFail2 oracleNone
        "Joe: a\nAlex: b\nJoe: c".data "Joe".data "Alex".data
        "out.mp3".data none none ⟨[], []⟩
      = (none, ⟨[], []⟩) :=
  C2_amended cfg0 netFail2 oracleNone "Joe: a\nAlex: b\nJoe: c".data
    "Joe".data "Alex".data "out.mp3".data none none ⟨[], []⟩
    "host1" "host2" "host1" "a".data "b".data "c".data 100
    (by decide) (by decide) (by decide) (by decide) (by decide)
    rfl (by decide) rfl
    (by intro e he; cases he) (by intro h; cases h)

/-- C3, counterexample: on the line `"] [drum roll]"` — which contains a
`'['` with a `']'` after it, and whose first bracket pair encloses the
known token `drum roll` — the rule stated by the claim emits a SoundCue,
but `process_script_for_sfx` emits nothing, because the code compares the
first `'['` of the line with the first `']'` of the whole line (here at
index 0, before the `'['`). -/
theorem C3_counterexample :
    scan_claim "] [drum roll]".data
        = [(0, "drum roll".data, "drum roll".data)]
      ∧ process_script_for_sfx "] [drum roll]".data = [] := by
  decide

/-- C5, counterexample: the cache key is *not* the description with all
whitespace replaced by underscores: for the description `"drum\troll"`
(tab whitespace) a successful `generate_sfx` call caches at
`cache/sfx/drum\troll.mp3` — only space characters are replaced — which
differs from the whitespace-normalised key the claim states. -/
theorem C5_counterexample :
    (generate_sfx (fun _ => some 10) "drum\troll".data none ⟨[], []⟩).1
        = some "cache/sfx/drum\troll.mp3".data
      ∧ "cache/sfx/drum\troll.mp3".data ≠ wsCacheKeyClaim "drum\troll".data := by
  decide

/-- C6: the voice-synthesis POST of `text_to_speech` is issued with a
90-second per-call timeout, but the effect-synthesis POST of
`generate_sfx` is issued with *no* timeout argument at all (so a hung
effect call can stall the pipeline indefinitely, contradicting the
spec's required per-call timeout bound). -/
theorem C6_sfx_call_has_no_timeout :
    (tts_request "voiceOne12345".data).timeoutSec = some 90
      ∧ sfx_request.timeoutSec = none :=
  ⟨rfl, rfl⟩

/-- C7: on the transcript
`"EPISODE TITLE: Test\nJoe: Hi there\nAlex: Hello Joe\nJoe: [mic drop] Great talk"`
with labels `Joe`/`Alex`, the parser yields exactly the three turns
`(host1, "Hi there"), (host2, "Hello Joe"), (host1, "[mic drop] Great talk")`
in order (the EPISODE TITLE line yields no turn), and the cue scanner
yields exactly one SoundCue, token `mic drop`, at line index 3. -/
theorem C7_end_to_end :
    extract_dialogue
        "EPISODE TITLE: Test\nJoe: Hi there\nAlex: Hello Joe\nJoe: [mic drop] Great talk".data
        "Joe".data "Alex".data
        = [("host1", "Hi there".data), ("host2", "Hello Joe".data),
           ("host1", "[mic drop] Great talk".data)]
      ∧ process_script_for_sfx
        "EPISODE TITLE: Test\nJoe: Hi there\nAlex: Hello Joe\nJoe: [mic drop] Great talk".data
        = [(3, "mic drop".data, "mic drop sound effect".data)] := by
  decide

/-- C4: concatenating three segment files that all load and decode
successfully, with durations `d1`, `d2`, `d3`, exports to `output_path`
the track `seg d1, silence, seg d2, silence, seg d3` — the fixed 250 ms
silence between consecutive segments, none after the last — whose total
duration is `d1 + 250 + d2 + 250 + d3`, and returns the output path. -/
theorem C4_concat_duration (oracle : LC → Option Nat) (f1 f2 f3 outP : LC)
    (st : FState) (n1 n2 n3 d1 d2 d3 : Nat)
    (hf1 : lookupFile f1 st.files = some (.bytes n1)) (hn1 : 0 < n1)
    (ho1 : oracle f1 = some d1)
    (hf2 : lookupFile f2 st.files = some (.bytes n2)) (hn2 : 0 < n2)
    (ho2 : oracle f2 = some d2)
    (hf3 : lookupFile f3 st.files = some (.bytes n3)) (hn3 : 0 < n3)
    (ho3 : oracle f3 = some d3) :
    (concatenate_audio_pydub oracle [f1, f2, f3] outP st).1 = outP
      ∧ lookupFile outP
          (concatenate_audio_pydub oracle [f1, f2, f3] outP st).2.files
        = some (.audio [.seg d1, .silence, .seg d2, .silence, .seg d3])
      ∧ durList [.seg d1, .silence, .seg d2, .silence, .seg d3]
        = d1 + 250 + d2 + 250 + d3 := by
  have hitems : concatItems oracle st 0 3 [f1, f2, f3]
      = [.seg d1, .silence, .seg d2, .silence, .seg d3] := by
    simp +decide [concatItems, loadSeg, hf1, hf2, hf3, ho1, ho2, ho3,
      fileSize, hn1, hn2, hn3]
  have hdur : durList [CItem.seg d1, .silence, .seg d2, .silence, .seg d3]
      = d1 + 250 + d2 + 250 + d3 := by
    simp [durList]; omega
  have hlen : ([f1, f2, f3] : List LC).length = 3 := rfl
  unfold concatenate_audio_pydub
  rw [if_neg (by simp : ¬([f1, f2, f3] : List LC) = [])]
  rw [hlen, hitems]
  simp only [hdur]
  rw [if_neg (by omega : ¬(d1 + 250 + d2 + 250 + d3 = 0))]
  exact ⟨rfl, by rw [lookupFile_setFile_self], trivial⟩

/-- C4, witness: the theorem applied to three concrete on-disk segments
of durations 1000/2000/3000 ms. -/
theorem C4_concat_duration_witness :
    (concatenate_audio_pydub oracle3
        ["segA.mp3".data, "segB.mp3".data, "segC.mp3".data]
        "out.mp3".data st3).1 = "out.mp3".data
      ∧ lookupFile "out.mp3".data
          (concatenate_audio_pydub oracle3
            ["segA.mp3".data, "segB.mp3".data, "segC.mp3".data]
            "out.mp3".data st3).2.files
        = some (.audio [.seg 1000, .silence, .seg 2000, .silence, .seg 3000])
      ∧ durList [.seg 1000, .silence, .seg 2000, .silence, .seg 3000]
        = 1000 + 250 + 2000 + 250 + 3000 :=
  C4_concat_duration oracle3 "segA.mp3".data "segB.mp3".data "segC.mp3".data
    "out.mp3".data st3 5 6 7 1000 2000 3000
    (by decide) (by decide) (by decide) (by decide) (by decide) (by decide)
    (by decide) (by decide) (by decide)

/-- C5, amended: effect caching is idempotent.  On a cache miss with a
successful network call, `generate_sfx` (with no explicit output path)
returns the cache path — the description with its *space characters*
replaced by underscores — making exactly one network call; a second call
with the same description then makes zero network calls, returns the same
cached path, and leaves the file system unchanged. -/
theorem C5_amended (sfxNet : LC → Option Nat) (prompt : LC) (st : FState)
    (n : Nat)
    (hmiss : lookupFile (sfx_cache_path prompt) st.files = none)
    (hok : sfxNet prompt = some n) :
    (generate_sfx sfxNet prompt none st).1 = some (sfx_cache_path prompt)
      ∧ (generate_sfx sfxNet prompt none st).2.2 = 1
      ∧ generate_sfx sfxNet prompt none (generate_sfx sfxNet prompt none st).2.1
        = (some (sfx_cache_path prompt),
           (generate_sfx sfxNet prompt none st).2.1, 0) := by
  have h1 : generate_sfx sfxNet prompt none st
      = (some (sfx_cache_path prompt),
         { st with files :=
            setFile (sfx_cache_path prompt) (.bytes n) st.files }, 1) := by
    simp [generate_sfx, hmiss, hok]
  refine ⟨by rw [h1], by rw [h1], ?_⟩
  rw [h1]
  simp [generate_sfx, lookupFile_setFile_self]

/-- C5, witness: the amended theorem at the description `"drum roll"`
starting from an empty cache. -/
theorem C5_amended_witness :
    (generate_sfx (fun _ => some 10) "drum roll".data none ⟨[], []⟩).1
        = some (sfx_cache_path "drum roll".data)
      ∧ (generate_sfx (fun _ => some 10) "drum roll".data none ⟨[], []⟩).2.2 = 1
      ∧ generate_sfx (fun _ => some 10) "drum roll".data none
          (generate_sfx (fun _ => some 10) "drum roll".data none ⟨[], []⟩).2.1
        = (some (sfx_cache_path "drum roll".data),
           (generate_sfx (fun _ => some 10) "drum roll".data none ⟨[], []⟩).2.1,
           0) :=
  C5_amended (fun _ => some 10) "drum roll".data ⟨[], []⟩ 10 rfl rfl

/-- C10: in `concatenate_audio_pydub` the 250 ms silence following a
decoded segment at index `i` is appended whenever `i` is not the last
index of the input list, independently of whether any later segment
decodes; consequently, for every segment list whose last file fails to
load or decode while some earlier file succeeds, the exported audio ends
with trailing silence. -/
theorem C10_trailing_silence (oracle : LC → Option Nat) (st : FState)
    (init : List LC) (lastF outP : LC)
    (hlast : loadSeg oracle st lastF = none)
    (hex : ∃ f ∈ init, loadSeg oracle st f ≠ none) :
    (concatenate_audio_pydub oracle (init ++ [lastF]) outP st).1 = outP
      ∧ ∃ items,
          lookupFile outP
              (concatenate_audio_pydub oracle (init ++ [lastF]) outP st).2.files
            = some (.audio items)
          ∧ items.getLast? = some CItem.silence := by
  have hn : (init ++ [lastF]).length = init.length + 1 := by simp
  have hsplit :
      concatItems oracle st 0 (init ++ [lastF]).length (init ++ [lastF])
        = concatItems oracle st 0 (init ++ [lastF]).length init := by
    rw [concatItems_append]
    simp [concatItems, hlast]
  obtain ⟨f, hf, hfl⟩ := hex
  have hne : concatItems oracle st 0 (init ++ [lastF]).length init ≠ [] :=
    concatItems_ne_nil oracle st (init ++ [lastF]).length init 0 f hf hfl
  have hsil :
      (concatItems oracle st 0 (init ++ [lastF]).length init).getLast?
        = some CItem.silence := by
    rcases concatItems_last_silence oracle st (init ++ [lastF]).length init 0
        (by rw [hn]; omega) with h | h
    · exact absurd h hne
    · exact h
  have hpos : 0 < durList (concatItems oracle st 0 (init ++ [lastF]).length init) :=
    durList_pos_of_last_silence _ hsil
  unfold concatenate_audio_pydub
  rw [if_neg (by simp : ¬(init ++ [lastF]) = [])]
  rw [hsplit]
  rw [if_neg (by omega :
    ¬durList (concatItems oracle st 0 (init ++ [lastF]).length init) = 0)]
  exact ⟨rfl, concatItems oracle st 0 (init ++ [lastF]).length init,
    by rw [lookupFile_setFile_self], hsil⟩

/-- C10, witness: one decodable segment followed by a missing file — the
export succeeds and the track ends in silence. -/
theorem C10_trailing_silence_witness :
    (concatenate_audio_pydub oracle3 (["segA.mp3".data] ++ ["missing.mp3".data])
        "out2.mp3".data st3).1 = "out2.mp3".data
      ∧ ∃ items,
          lookupFile "out2.mp3".data
              (concatenate_audio_pydub oracle3
                (["segA.mp3".data] ++ ["missing.mp3".data])
                "out2.mp3".data st3).2.files
            = some (.audio items)
          ∧ items.getLast? = some CItem.silence :=
  C10_trailing_silence oracle3 st3 ["segA.mp3".data] "missing.mp3".data
    "out2.mp3".data (by decide) ⟨"segA.mp3".data, by decide, by decide⟩

/-- C8: a dialogue turn whose text is empty after trimming is skipped by
the synthesize loop before any network call: the loop neither produces a
segment for it nor aborts because of it.  Whenever every network call
succeeds, the loop completes with `some` list of segment paths whose
length counts only the non-empty-text turns — the empty-text turn
contributes nothing and the episode still succeeds. -/
theorem C8_empty_text_skipped (net : Nat → NetOut) (v1 v2 : LC)
    (ts1 ts2 : List (String × LC)) (sp : String) (t : LC) (st : FState)
    (hv1 : validVoice v1) (hv2 : validVoice v2)
    (hnet : ∀ j, isOkNet (net j) = true) (hempty : pyStrip t = []) :
    ∃ l st2,
      synthLoop net v1 v2 temp_dir 0 (ts1 ++ (sp, t) :: ts2) [] st
          = (some l, st2)
        ∧ l.length = keptCount ts1 + keptCount ts2 := by
  obtain ⟨l, st2, heq, hlen⟩ :=
    synthLoop_all_ok net v1 v2 hv1 hv2 hnet (ts1 ++ (sp, t) :: ts2) 0 [] st
  refine ⟨l, st2, heq, ?_⟩
  rw [hlen]
  simp only [keptCount, List.filter_append, List.length_append,
    List.length_nil]
  have : ((sp, t) :: ts2).filter (fun p => !(pyStrip p.2).isEmpty)
      = ts2.filter (fun p => !(pyStrip p.2).isEmpty) := by
    simp [List.filter, hempty]
  rw [this]
  omega

/-- C8, witness: three turns, the middle one with whitespace-only text:
the loop succeeds and produces exactly two segments. -/
theorem C8_empty_text_skipped_witness :
    ∃ l st2,
      synthLoop netOk "voiceOne12345".data "voiceTwo12345".data temp_dir 0
          ([("host1", "a".data)] ++ ("host2", " ".data) :: [("host1", "c".data)])
          [] ⟨[], []⟩
          = (some l, st2)
        ∧ l.length = keptCount [("host1", "a".data)]
            + keptCount [("host1", "c".data)] :=
  C8_empty_text_skipped netOk "voiceOne12345".data "voiceTwo12345".data
    [("host1", "a".data)] [("host1", "c".data)] "host2" " ".data ⟨[], []⟩
    (by decide) (by decide) (fun j => rfl) (by decide)

/-- C9: an execution in which the only produced segment fails to decode:
concatenation fails, and `generate_audio` returns `some` of the
concatenation *error string* — a non-null value that starts with
`"Error:"`, differs from `output_path`, and is accompanied by no file at
`output_path`.  A non-null return of the assembler therefore does not
imply a usable output file. -/
theorem C9_concat_error_string_returned :
    (generate_audio cfg0 netOk oracleNone oracleNone "Joe: hi".data
        "Joe".data "Alex".data "out.mp3".data none none ⟨[], []⟩).1
        = some "Error: Concatenation resulted in an empty audio file (all segments might have failed).".data
      ∧ "Error:".data.isPrefixOf
          "Error: Concatenation resulted in an empty audio file (all segments might have failed).".data
        = true
      ∧ "Error: Concatenation resulted in an empty audio file (all segments might have failed).".data
        ≠ "out.mp3".data
      ∧ lookupFile "out.mp3".data
          (generate_audio cfg0 netOk oracleNone oracleNone "Joe: hi".data
            "Joe".data "Alex".data "out.mp3".data none none ⟨[], []⟩).2.files
        = none := by
  decide

end Podfeed
